import Mathlib

/-!
Shallow embedding of the synchronization core of the smart-ftp VS Code
extension (sources: `src/managers/ftpManager.ts`, `src/utils/pathUtils.ts`,
`src/managers/fileWatcher.ts`, `src/types/config.ts`), together with
theorems settling the specification claims about that code.

Conventions of the embedding:
- TypeScript strings are Lean `String`; character-level helpers are written
  as structural recursions over `List Char` so that all definitions reduce
  in the kernel (witnesses are checked with `decide` / `rfl`).
- JavaScript `number` values used as millisecond timestamps or byte sizes
  become `Int` (they are compared, added, never overflowed here).
- `undefined` / optional values become `Option`.
- Asynchronous methods become pure state-transition functions: the mutable
  fields of the TypeScript classes are gathered into explicit state
  structures, and the outcome of each awaited transport call is passed in
  as data (an oracle), since the transport itself is an external
  collaborator.
-/

namespace SmartFTP

/-! ## Character-list string helpers

`path.basename`, `String.prototype.includes`, `startsWith`, `endsWith` and
`path.relative` (for paths at or below the workspace root, the only case
the call sites produce) are modelled on `List Char` with structural
recursion. Only forward-slash separators appear: the TypeScript code
normalizes backslashes to `/` before every comparison made here.
-/

/-- `pat` is an initial segment of `s` (character-wise). -/
def firstMatches : List Char → List Char → Bool
  | [], _ => true
  | _ :: _, [] => false
  | p :: ps, c :: cs => p == c && firstMatches ps cs

/-- `String.prototype.includes`: `pat` occurs contiguously in `s`. -/
def listContainsSub (pat s : List Char) : Bool :=
  match s with
  | [] => firstMatches pat []
  | _ :: cs => firstMatches pat s || listContainsSub pat cs

/-- `s.includes(pat)` on strings. -/
def containsSubstr (s pat : String) : Bool := listContainsSub pat.toList s.toList

/-- `s.startsWith(pre)`. -/
def strStartsWith (s pre : String) : Bool := firstMatches pre.toList s.toList

/-- `s.endsWith(suf)`. -/
def strEndsWith (s suf : String) : Bool :=
  firstMatches suf.toList.reverse s.toList.reverse

/-- Characters of the last path component: everything after the last `/`. -/
def takeUntilSlash : List Char → List Char
  | [] => []
  | c :: cs => if c == '/' then [] else c :: takeUntilSlash cs

/-- `path.basename` for forward-slash paths without a trailing slash
(every call site passes a file or directory path in that form). -/
def basename (p : String) : String :=
  String.mk (takeUntilSlash p.toList.reverse).reverse

/-- `path.relative(root, p)` specialised to the case the call sites
guarantee: `p` lies at or below `root`. Other inputs are returned as-is. -/
def relativeTo (root p : String) : String :=
  if strStartsWith p (root ++ "/") then String.mk (p.toList.drop (root.toList.length + 1))
  else if p = root then ""
  else p

/-- `path.posix.join(a, b)` for the dot-free inputs used here. -/
def posixJoin (a b : String) : String :=
  if a = "" then b
  else if b = "" then a
  else if strEndsWith a "/" then a ++ b
  else a ++ "/" ++ b

/-! ## Ignore-pattern matching (`PathUtils.shouldIgnoreFile`)

The TypeScript function compiles a glob pattern into a regular expression
by escaping `.`, turning `**` into `.+` and `*` into `[^/]*`, anchored at
both ends; all other characters of the patterns in use are regex-literal.
`globMatch` implements exactly that compiled regex directly.
-/

/-- Regex fragment `[^/]*` followed by the continuation `rest`. -/
def starSeg (rest : List Char → Bool) : List Char → Bool
  | [] => rest []
  | c :: s' => rest (c :: s') || (c != '/' && starSeg rest s')

/-- Regex fragment `.+` (one or more arbitrary characters) followed by the
continuation `rest`. -/
def plusSeg (rest : List Char → Bool) : List Char → Bool
  | [] => false
  | _ :: s' => rest s' || plusSeg rest s'

/-- Anchored match of a compiled ignore glob against a string:
`**` is `.+`, a single `*` is `[^/]*`, every other character is literal. -/
def globMatch : List Char → List Char → Bool
  | [] => fun s => s.isEmpty
  | '*' :: '*' :: ps => plusSeg (globMatch ps)
  | '*' :: ps => starSeg (globMatch ps)
  | p :: ps => fun s =>
      match s with
      | c :: s' => p == c && globMatch ps s'
      | [] => false

/-- The fixed built-in ignore set of `PathUtils.shouldIgnoreFile`. -/
def defaultIgnores : List String :=
  [".git", ".vscode", "node_modules", ".DS_Store", "Thumbs.db", ".env",
   "*.log", "smartftp.json"]

/-- `PathUtils.shouldIgnoreFile(filePath, ignorePatterns)`.
`root` is the workspace root the TypeScript code reads from the editor
environment; `ignorePatterns` is the optional caller-supplied list (the
TypeScript default parameter `[]` is the `none` case). -/
def shouldIgnoreFile (filePath : String) (root : Option String)
    (ignorePatterns : Option (List String)) : Bool :=
  let fileName := basename filePath
  let allPatterns := defaultIgnores ++ ignorePatterns.getD []
  let relativePath :=
    match root with
    | some w => relativeTo w filePath
    | none => fileName
  allPatterns.any fun pattern =>
    if pattern = "" then false
    else if fileName = pattern ∨ relativePath = pattern then true
    else if containsSubstr pattern "*" then
      globMatch pattern.toList fileName.toList ||
        globMatch pattern.toList relativePath.toList
    else if strEndsWith pattern "/" && strStartsWith (relativePath ++ "/") pattern then
      true
    else false

/-! ## Error model and classification (`FTPManager.handleFTPError`) -/

/-- A caught error as the manager sees it: whether it is a protocol
`FTPError` (carrying a reply code) and its message text. -/
structure FTPErrInfo where
  isFTPErr : Bool
  code : Nat
  message : String
  deriving Repr, DecidableEq

/-- Reply codes `handleFTPError` treats as connection loss
(service not available, connection closed, not logged in). -/
def transientCodes : List Nat := [421, 426, 530]

/-- Message fragments `handleFTPError` treats as network-level
connection loss. -/
def connectionLossMarkers : List String :=
  ["ECONNRESET", "timeout", "Not connected", "Connection closed"]

/-- `handleFTPError`'s classification: the error indicates connection
loss (flip `connected` to false and schedule a reconnect) exactly when
this is true; every other error leaves the connection state alone. -/
def isTransient (e : FTPErrInfo) : Bool :=
  (e.isFTPErr && transientCodes.contains e.code) ||
    connectionLossMarkers.any (fun m => containsSubstr e.message m)

/-- Fatal in the spec's taxonomy: anything `handleFTPError` does not
classify as connection loss (benignity of 550 on delete is decided at the
delete call sites, not here). -/
def isFatal (e : FTPErrInfo) : Bool := !(isTransient e)

/-! ## Configuration (`src/types/config.ts`) -/

inductive Protocol where
  | ftp
  | sftp
  deriving Repr, DecidableEq

structure WatcherConfig where
  files : String
  autoUpload : Bool
  autoDelete : Bool
  ignoreCreate : Bool
  ignoreUpdate : Bool
  ignoreDelete : Bool
  deriving Repr, DecidableEq

structure FTPConfig where
  name : String
  host : String
  protocol : Protocol
  port : Nat
  username : String
  password : String
  remotePath : String
  uploadOnSave : Bool
  useTempFile : Bool
  openSsh : Bool
  watcher : WatcherConfig
  ignore : Option (List String)
  deriving Repr, DecidableEq

/-! ## Upload queue (`FTPManager.uploadFile` / `processUploadQueue`) -/

/-- `UploadTask` (the `timestamp: Date` field carries no behaviour and is
omitted). -/
structure UploadTask where
  localPath : String
  remotePath : String
  retries : Nat
  deriving Repr, DecidableEq

/-- `this.maxRetries = 3`. -/
def maxRetries : Nat := 3

/-- The mutable manager fields `uploadFile` reads or writes. -/
structure MgrState where
  isSyncingOrDownloading : Bool
  uploadQueue : List UploadTask
  connected : Bool
  deriving Repr, DecidableEq

/-- `PathUtils.toRemotePath(localPath, workspaceRoot, remotePath)`. -/
def toRemotePath (localPath workspaceRoot remoteRoot : String) : String :=
  posixJoin remoteRoot (relativeTo workspaceRoot localPath)

/-- `FTPManager.uploadFile(localPath, remotePath?)`.
`fileExists` is the result of the `fs.existsSync(localPath)` probe.
Returns the new manager state and the boolean result. Triggering
`connect()` / `processUploadQueue()` at the end only starts draining and
does not change the queue contents, so it is not part of this function's
state change. -/
def uploadFile (cfg : Option FTPConfig) (root : Option String) (fileExists : Bool)
    (st : MgrState) (localPath : String) (remotePathArg : Option String) :
    MgrState × Bool :=
  if st.isSyncingOrDownloading then (st, true)
  else
    match cfg with
    | none => (st, false)
    | some c =>
      if fileExists = false then (st, false)
      else
        let rpOpt : Option String :=
          match remotePathArg with
          | some r => some r
          | none =>
            match root with
            | none => none
            | some w => some (toRemotePath localPath w c.remotePath)
        match rpOpt with
        | none => (st, false)
        | some remotePath =>
          if shouldIgnoreFile localPath root c.ignore then (st, true)
          else
            ({ st with
                uploadQueue := st.uploadQueue ++ [⟨localPath, remotePath, 0⟩] },
              true)

/-- Outcome of the `catch` block of one failed upload attempt in
`processUploadQueue`: the incremented task is pushed back to the head of
the queue (`some`) or dropped with a terminal error report (`none`). -/
structure CatchResult where
  requeued : Option UploadTask
  terminalReport : Bool
  transient : Bool
  deriving Repr, DecidableEq

/-- The `catch` block of `processUploadQueue`: `task.retries++`, then
requeue at the head exactly when `task.retries < this.maxRetries &&
!this.client?.closed`; otherwise report a permanent upload failure. The
error classification (`handleFTPError`) only affects the connection
status, recorded in `transient`. -/
def uploadCatch (t : UploadTask) (e : FTPErrInfo) (closed : Bool) : CatchResult :=
  let t' : UploadTask := { t with retries := t.retries + 1 }
  if t'.retries < maxRetries ∧ closed = false then
    { requeued := some t', terminalReport := false, transient := isTransient e }
  else
    { requeued := none, terminalReport := true, transient := isTransient e }

/-- What each awaited upload attempt does: succeed, or throw an error
after which the client is (`closedAfter`) or is not closed. -/
inductive AttemptOutcome where
  | ok
  | fail (e : FTPErrInfo) (closedAfter : Bool)
  deriving Repr, DecidableEq

/-- Status-bar reports emitted while draining. -/
inductive Report where
  | uploadSuccess (name : String)
  | uploadError (name : String)
  deriving Repr, DecidableEq

/-- The file name a report is about. -/
def reportName : Report → String
  | .uploadSuccess n => n
  | .uploadError n => n

/-- The drain loop of `processUploadQueue`, fed the outcome of each
attempt from the oracle `os`. `connected` is `isConnected()` as the loop
sees it (a transient error flips it to false, stopping the next
iteration). Returns the remaining queue and the emitted reports; the
code path names follow the TypeScript:
loop-top connection check, success path, requeue-at-head path,
permanent-failure path, break-on-closed path. -/
def runDrain (connected : Bool) (os : List AttemptOutcome) (q : List UploadTask) :
    List UploadTask × List Report :=
  match q with
  | [] => ([], [])
  | t :: q' =>
    if connected then
      match os with
      | [] => (t :: q', [])
      | .ok :: os' =>
        let r := runDrain connected os' q'
        (r.1, Report.uploadSuccess (basename t.localPath) :: r.2)
      | .fail e closed :: os' =>
        let cr := uploadCatch t e closed
        let connected' := if cr.transient then false else connected
        match cr.requeued with
        | some t2 => runDrain connected' os' (t2 :: q')
        | none =>
          if closed then (q', [Report.uploadError (basename t.localPath)])
          else
            let r := runDrain connected' os' q'
            (r.1, Report.uploadError (basename t.localPath) :: r.2)
    else (t :: q', [])
termination_by os.length

/-! ## Sync comparison (`FTPManager._recursiveSync`, file branch) -/

/-- The local stat record `_recursiveSync` builds per directory entry. -/
structure LocalStat where
  isDir : Bool
  mtimeMs : Int
  size : Int
  deriving Repr, DecidableEq

/-- Why a file is downloaded (the code's `reason` strings, as tags). -/
inductive DlReason where
  | localMissing
  | remoteMtimeMissing
  | remoteNewer
  | sizesDiffer
  deriving Repr, DecidableEq

inductive SyncDecision where
  | skip
  | skipDirCollision
  | downloadFile (r : DlReason)
  deriving Repr, DecidableEq

/-- `const timeTolerance = 2000` (milliseconds). -/
def timeTolerance : Int := 2000

/-- The per-remote-file decision of `_recursiveSync`: given the local
counterpart (if any), the remote modification time in ms (if reported)
and the remote size (if reported), decide between skipping and
downloading, exactly as the chain of `if`s in the source. -/
def fileSyncDecision (localStats : Option LocalStat)
    (remoteMtimeMs : Option Int) (remoteSize : Option Int) : SyncDecision :=
  match localStats with
  | none => .downloadFile .localMissing
  | some ls =>
    if ls.isDir then .skipDirCollision
    else
      match remoteMtimeMs with
      | none => .downloadFile .remoteMtimeMissing
      | some rm =>
        if rm > ls.mtimeMs + timeTolerance then .downloadFile .remoteNewer
        else
          match remoteSize with
          | some rs => if rs ≠ ls.size then .downloadFile .sizesDiffer else .skip
          | none => .skip

/-- Whether a decision is a download. -/
def isDownload : SyncDecision → Bool
  | .downloadFile _ => true
  | _ => false

/-! ## Remote delete (`FTPManager.deleteFile` / `deleteDirectory`) -/

/-- Observable outcome of the try/catch around `client.remove` /
`client.removeDir`: the returned boolean, whether the error was surfaced
as a failure (i.e. routed through `handleFTPError` and returned `false`),
whether `connectionStatus.connected` was cleared, and whether a reconnect
was scheduled. -/
structure RemoteDeleteOutcome where
  returnValue : Bool
  surfaced : Bool
  connectedCleared : Bool
  reconnectScheduled : Bool
  deriving Repr, DecidableEq

/-- The body of `deleteFile` after the connection/config guards:
`outcome` is `none` when `client.remove` succeeds, `some e` when it
throws `e`. A 550 (`Not Found`) is treated as success and never touches
the connection state. -/
def deleteFileAttempt (outcome : Option FTPErrInfo) : RemoteDeleteOutcome :=
  match outcome with
  | none => ⟨true, false, false, false⟩
  | some e =>
    if e.isFTPErr && e.code == 550 then ⟨true, false, false, false⟩
    else ⟨false, true, isTransient e, isTransient e⟩

/-- The body of `deleteDirectory` after the guards (identical handling,
with `client.removeDir`). -/
def deleteDirectoryAttempt (outcome : Option FTPErrInfo) : RemoteDeleteOutcome :=
  match outcome with
  | none => ⟨true, false, false, false⟩
  | some e =>
    if e.isFTPErr && e.code == 550 then ⟨true, false, false, false⟩
    else ⟨false, true, isTransient e, isTransient e⟩

/-! ## Connection status (`ConnectionStatus` mutation sites) -/

/-- `ConnectionStatus` (the optional `error`, `lastConnected`, `host`
fields carry no control flow for the invariant and are omitted). -/
structure ConnectionStatus where
  connected : Bool
  connecting : Bool
  deriving Repr, DecidableEq

/-- Every site in `FTPManager` that mutates `this.connectionStatus`:
the connection-lost detection in `checkConnection` and in the transient
branch of `handleFTPError` (both only clear `connected`), the start of
`connect()`, its success and failure exits, and `disconnect()`.
The non-transient branch of `handleFTPError` leaves the status alone and
needs no event. -/
inductive ConnEvent where
  | connLostDetected
  | connectStart
  | connectSuccess
  | connectFailure
  | disconnectDone
  deriving Repr, DecidableEq

/-- The status written by each mutation site. -/
def statusStep (s : ConnectionStatus) : ConnEvent → ConnectionStatus
  | .connLostDetected => { s with connected := false }
  | .connectStart => ⟨false, true⟩
  | .connectSuccess => ⟨true, false⟩
  | .connectFailure => ⟨false, false⟩
  | .disconnectDone => ⟨false, false⟩

/-- The initial field value of `FTPManager.connectionStatus`. -/
def initialStatus : ConnectionStatus := ⟨false, false⟩

/-- Status after a sequence of mutation events from process start. -/
def runStatus (es : List ConnEvent) : ConnectionStatus :=
  es.foldl statusStep initialStatus

/-! ## File watcher (`FileWatcher`, debounce and save handling) -/

/-- `PathUtils.isInWorkspace(filePath)`: the workspace root exists and
the path starts with it. -/
def isInWorkspace (root : Option String) (p : String) : Bool :=
  match root with
  | none => false
  | some r => strStartsWith p r

/-- The watcher's mutable state: the key set of the `uploadDebounce` map,
i.e. the paths with a pending debounce timer. -/
structure WatcherState where
  pending : List String
  deriving Repr, DecidableEq

/-- `FileWatcher.debounceUpload(filePath)`: guarded by
`isInWorkspace` and `shouldIgnoreFile(filePath)` (note: called with no
extra patterns), then cancel any existing timer for the path and start a
fresh one. Returns the new state and the `uploadFile` calls made now
(none: the upload happens when the timer fires). -/
def debounceUpload (root : Option String) (st : WatcherState) (p : String) :
    WatcherState × List String :=
  if isInWorkspace root p = false then (st, [])
  else if shouldIgnoreFile p root none then (st, [])
  else ({ pending := p :: st.pending.erase p }, [])

/-- A debounce timer for `p` fires (only possible while it is pending):
the slot is cleared and `uploadFile(p)` is called. -/
def fireTimer (st : WatcherState) (p : String) : WatcherState × List String :=
  if p ∈ st.pending then ({ pending := st.pending.erase p }, [p])
  else (st, [])

/-- The `onDidSaveTextDocument` handler installed by `startSaveWatcher`:
guarded by `isInWorkspace` and `shouldIgnoreFile(filePath)` (again with
no extra patterns); clears a pending debounce timer for the path, then
calls `uploadFile(p)` immediately. -/
def onSave (root : Option String) (st : WatcherState) (p : String) :
    WatcherState × List String :=
  if isInWorkspace root p = false then (st, [])
  else if shouldIgnoreFile p root none then (st, [])
  else ({ pending := st.pending.erase p }, [p])

/-- `FileWatcher.stop()`: every pending timer is cancelled without
firing. -/
def stopWatcher : WatcherState × List String := (⟨[]⟩, [])

/-- Events driving the watcher state. -/
inductive WEvent where
  | watch (p : String)
  | fire (p : String)
  | save (p : String)
  | stop
  deriving Repr, DecidableEq

def watcherStep (root : Option String) (st : WatcherState) : WEvent → WatcherState
  | .watch p => (debounceUpload root st p).1
  | .fire p => (fireTimer st p).1
  | .save p => (onSave root st p).1
  | .stop => stopWatcher.1

/-- Watcher state reached from start (empty debounce map) by `es`. -/
def runWatcher (root : Option String) (es : List WEvent) : WatcherState :=
  es.foldl (watcherStep root) ⟨[]⟩

/-! ## Reconnect timer (`scheduleReconnect`, `connect`, `disconnect`) -/

/-- The manager fields involved in reconnect scheduling.
`pendingTimers` counts scheduled reconnect timers (in the source this is
the single nullable field `reconnectTimer`; counting proves nothing is
ever leaked beyond one). `clientNull` models `this.client === null`;
`hasError` models `connectionStatus.error !== undefined`. -/
structure ReconnState where
  connected : Bool
  connecting : Bool
  pendingTimers : Nat
  clientNull : Bool
  hasError : Bool
  deriving Repr, DecidableEq

/-- `FTPManager.scheduleReconnect()`: refuse while connecting or while a
timer is already pending; refuse after an intentional disconnect
(client null and no recorded error); otherwise arm one timer. -/
def scheduleReconnect (st : ReconnState) : ReconnState :=
  if st.connecting = true ∨ 0 < st.pendingTimers then st
  else if st.clientNull && !st.hasError then st
  else { st with pendingTimers := st.pendingTimers + 1 }

/-- The synchronous head of `connect()`: the no-config case is outside
this model (config present), the already-connecting and already-connected
early returns change nothing, and the proceeding path clears any pending
timer and enters the connecting status. -/
def connectBeginStep (st : ReconnState) : ReconnState :=
  if st.connecting then st
  else if st.connected && !st.clientNull then st
  else { st with pendingTimers := 0, connecting := true, connected := false,
                 hasError := false }

/-- The success exit of `connect()`: status becomes connected, the client
is live, the error field is dropped. -/
def connectSuccessStep (st : ReconnState) : ReconnState :=
  { st with connected := true, connecting := false, clientNull := false,
            hasError := false }

/-- The catch exit of `connect()`: status cleared with an error recorded,
client closed and nulled, then `scheduleReconnect()`. -/
def connectFailureStep (st : ReconnState) : ReconnState :=
  scheduleReconnect
    { st with connected := false, connecting := false, hasError := true,
              clientNull := true }

/-- The transient branch of `handleFTPError` (or `checkConnection`):
`connected` cleared, an error recorded, then `scheduleReconnect()`. -/
def connLostStep (st : ReconnState) : ReconnState :=
  scheduleReconnect { st with connected := false, hasError := true }

/-- The reconnect timer callback firing: the timer slot is cleared first
(whether or not it then decides to call `connect()`, which is a separate
event). -/
def timerFireStep (st : ReconnState) : ReconnState :=
  if 0 < st.pendingTimers then { st with pendingTimers := st.pendingTimers - 1 }
  else st

/-- `disconnect()`: cancel any pending timer, close and null the client,
reset the status (dropping any error). -/
def disconnectStep (st : ReconnState) : ReconnState :=
  { st with pendingTimers := 0, connected := false, connecting := false,
            clientNull := true, hasError := false }

inductive RcEvent where
  | connLost
  | connectBegin
  | connectSuccess
  | connectFailure
  | timerFire
  | disconnect
  | schedule
  deriving Repr, DecidableEq

def reconnStep (st : ReconnState) : RcEvent → ReconnState
  | .connLost => connLostStep st
  | .connectBegin => connectBeginStep st
  | .connectSuccess => connectSuccessStep st
  | .connectFailure => connectFailureStep st
  | .timerFire => timerFireStep st
  | .disconnect => disconnectStep st
  | .schedule => scheduleReconnect st

/-- Initial manager state: disconnected, no client, no timer, no error. -/
def initialReconn : ReconnState := ⟨false, false, 0, true, false⟩

def runReconn (es : List RcEvent) : ReconnState :=
  es.foldl reconnStep initialReconn

/-! ## The four ignore-decision sites

Each definition is one call site of `PathUtils.shouldIgnoreFile`, with
exactly the arguments that site passes. -/

/-- `uploadFile` (ftpManager.ts:230): `shouldIgnoreFile(localPath, this.config.ignore)`. -/
def uploadIgnoreCheck (c : FTPConfig) (root : Option String) (p : String) : Bool :=
  shouldIgnoreFile p root c.ignore

/-- `_recursiveSync` (ftpManager.ts:453/479): `shouldIgnoreFile(path, this.config?.ignore)`. -/
def syncIgnoreCheck (c : FTPConfig) (root : Option String) (p : String) : Bool :=
  shouldIgnoreFile p root c.ignore

/-- the save handler (fileWatcher.ts:158): `shouldIgnoreFile(filePath)` — no pattern list. -/
def saveIgnoreCheck (root : Option String) (p : String) : Bool :=
  shouldIgnoreFile p root none

/-- `debounceUpload` (fileWatcher.ts:182): `shouldIgnoreFile(filePath)` — no pattern list. -/
def watcherIgnoreCheck (root : Option String) (p : String) : Bool :=
  shouldIgnoreFile p root none

/-! ## Invariants used by the proofs -/

/-- Every path with a pending debounce timer passed the guards of
`debounceUpload` when its timer was installed, and the pending list has
no duplicates (the map has one slot per path). -/
def watcherInv (root : Option String) (st : WatcherState) : Prop :=
  st.pending.Nodup ∧
    ∀ p ∈ st.pending, isInWorkspace root p = true ∧ shouldIgnoreFile p root none = false

/-! ## Concrete instances used in counterexamples and witnesses -/

/-- A configuration whose ignore list holds one extra pattern. -/
def cfg0 : FTPConfig :=
  { name := "My Server", host := "localhost", protocol := .ftp, port := 21,
    username := "user", password := "pass", remotePath := "/",
    uploadOnSave := true, useTempFile := false, openSsh := false,
    watcher := ⟨"**/*", true, false, false, false, true⟩,
    ignore := some ["secret.txt"] }

/-- Manager state while a sync/download holds the exclusivity flag. -/
def syncingState : MgrState := ⟨true, [], true⟩

/-- A freshly enqueued task. -/
def task0 : UploadTask := ⟨"/ws/a.txt", "/a.txt", 0⟩

/-- A two-task queue of freshly enqueued uploads. -/
def q0 : List UploadTask := [⟨"/ws/a.txt", "/a.txt", 0⟩, ⟨"/ws/b.txt", "/b.txt", 0⟩]

/-- A protocol error the classifier treats as fatal: permission denied. -/
def permErr : FTPErrInfo := ⟨true, 550, "550 Permission denied"⟩

/-- A protocol "not found" error on a delete. -/
def notFoundErr : FTPErrInfo := ⟨true, 550, "550 No such file or directory"⟩

/-- The local-filesystem error `uploadFrom` throws when the local file
vanished between enqueue and drain. -/
def enoentErr : FTPErrInfo :=
  ⟨false, 0, "ENOENT: no such file or directory, open /ws/a.txt"⟩

/-! ## Claims -/

/-- C1 (counterexample): with a sync/download in progress, an upload
request leaves the queue empty and reports success — the task is not
recorded, contradicting the claim that enqueue is still accepted and only
draining is deferred. -/
theorem C1_counterexample :
    (uploadFile (some cfg0) (some "/ws") true syncingState "/ws/a.txt" none).1.uploadQueue
      = [] ∧
    (uploadFile (some cfg0) (some "/ws") true syncingState "/ws/a.txt" none).2 = true ∧
    syncingState.isSyncingOrDownloading = true := by
  refine ⟨rfl, rfl, rfl⟩

/-- C1 (amended): while a sync or download operation is in progress,
`uploadFile` returns `true` immediately without touching the manager
state: the task is never enqueued, so nothing proceeds after the
sync completes. -/
theorem C1_upload_dropped_during_sync (cfg : Option FTPConfig) (root : Option String)
    (fileExists : Bool) (st : MgrState) (lp : String) (rpa : Option String)
    (h : st.isSyncingOrDownloading = true) :
    uploadFile cfg root fileExists st lp rpa = (st, true) := by
  simp [uploadFile, h]

/-- C1 (witness): the amended theorem at a concrete syncing state. -/
theorem C1_witness :
    syncingState.isSyncingOrDownloading = true ∧
    uploadFile (some cfg0) (some "/ws") true syncingState "/ws/a.txt" none
      = (syncingState, true) :=
  ⟨rfl, C1_upload_dropped_during_sync (some cfg0) (some "/ws") true syncingState
    "/ws/a.txt" none rfl⟩

/-- C2: the sync engine skips a file whose local counterpart has equal
size and equal modification time; it downloads when the remote mtime
exceeds the local one by more than the 2s tolerance, when the reported
sizes differ, when no local counterpart exists, or when the remote
reports no modification time. -/
theorem C2_sync_decision (mt sz rm rs : Int) (ls : LocalStat)
    (hdir : ls.isDir = false) :
    fileSyncDecision (some ⟨false, mt, sz⟩) (some mt) (some sz) = SyncDecision.skip ∧
    (rm > mt + timeTolerance →
      isDownload (fileSyncDecision (some ⟨false, mt, sz⟩) (some rm) (some rs)) = true) ∧
    (rs ≠ sz →
      isDownload (fileSyncDecision (some ⟨false, mt, sz⟩) (some rm) (some rs)) = true) ∧
    isDownload (fileSyncDecision none (some rm) (some rs)) = true ∧
    isDownload (fileSyncDecision (some ls) none (some rs)) = true := by
  refine ⟨?_, ?_, ?_, ?_, ?_⟩
  · have h1 : ¬ (mt > mt + timeTolerance) := by simp [timeTolerance]
    simp [fileSyncDecision, h1]
  · intro h
    simp [fileSyncDecision, h, isDownload]
  · intro h
    by_cases hrm : rm > mt + timeTolerance
    · simp [fileSyncDecision, hrm, isDownload]
    · simp [fileSyncDecision, hrm, h, isDownload]
  · simp [fileSyncDecision, isDownload]
  · simp [fileSyncDecision, hdir, isDownload]

/-- C2 (witness): remote 100@T vs local 100@T is skipped; remote
100@T+3s vs local 100@T downloads; remote 120 vs local 100 at equal
mtimes downloads. -/
theorem C2_witness :
    ((3000 : Int) > 0 + timeTolerance) ∧ ((120 : Int) ≠ 100) ∧
    fileSyncDecision (some ⟨false, 0, 100⟩) (some 0) (some 100) = SyncDecision.skip ∧
    isDownload (fileSyncDecision (some ⟨false, 0, 100⟩) (some 3000) (some 100)) = true ∧
    isDownload (fileSyncDecision (some ⟨false, 0, 100⟩) (some 0) (some 120)) = true := by
  refine ⟨by decide, by decide, ?_, ?_, ?_⟩
  · exact (C2_sync_decision 0 100 3000 100 ⟨false, 0, 0⟩ rfl).1
  · exact (C2_sync_decision 0 100 3000 100 ⟨false, 0, 0⟩ rfl).2.1 (by decide)
  · exact (C2_sync_decision 0 100 0 120 ⟨false, 0, 0⟩ rfl).2.2.1 (by decide)

/-- C3 (counterexample): a fatal error (550 permission denied) on a
first attempt with the connection open is requeued for retry, not
removed — contradicting the claim that fatal errors are terminal with no
retry. -/
theorem C3_counterexample :
    isFatal permErr = true ∧
    uploadCatch task0 permErr false =
      { requeued := some ⟨"/ws/a.txt", "/a.txt", 1⟩, terminalReport := false,
        transient := false } := by
  exact ⟨by decide, by decide⟩

/-- C3 (amended): the requeue/drop decision after a failed attempt never
consults the error classification: even for a fatal error the task is
requeued at the head while `retries < maxRetries` and the client is
open, and it is removed with a terminal report exactly when retries are
exhausted or the client is closed. -/
theorem C3_fatal_retry_policy (t : UploadTask) (e : FTPErrInfo) (closed : Bool)
    (hf : isFatal e = true) :
    (t.retries + 1 < maxRetries ∧ closed = false →
      (uploadCatch t e closed).requeued = some { t with retries := t.retries + 1 } ∧
      (uploadCatch t e closed).terminalReport = false) ∧
    (¬ (t.retries + 1 < maxRetries ∧ closed = false) →
      (uploadCatch t e closed).requeued = none ∧
      (uploadCatch t e closed).terminalReport = true) := by
  constructor
  · intro h
    simp [uploadCatch, h]
  · intro h
    simp only [uploadCatch]
    rw [if_neg h]
    exact ⟨rfl, rfl⟩

/-- C3 (witness): the amended theorem at the concrete fatal error. -/
theorem C3_witness :
    isFatal permErr = true ∧
    (task0.retries + 1 < maxRetries ∧ false = false) ∧
    (uploadCatch task0 permErr false).requeued
      = some { task0 with retries := task0.retries + 1 } ∧
    (uploadCatch task0 permErr false).terminalReport = false := by
  refine ⟨by decide, by decide, ?_, ?_⟩
  · exact ((C3_fatal_retry_policy task0 permErr false (by decide)).1 (by decide)).1
  · exact ((C3_fatal_retry_policy task0 permErr false (by decide)).1 (by decide)).2

/-- C4 (counterexample): a path matched only by the configuration's
ignore list is ignored at the upload-enqueue site but not at the save
site — the four sites do not agree for every configuration. -/
theorem C4_counterexample :
    uploadIgnoreCheck cfg0 (some "/ws") "/ws/secret.txt" = true ∧
    saveIgnoreCheck (some "/ws") "/ws/secret.txt" = false := by
  exact ⟨by decide, by decide⟩

/-- C4 (amended): all four sites call the same matching function, but
only the upload-enqueue and sync sites pass the configuration's ignore
list; the save handler and the watcher debounce pass no extra patterns.
Hence upload and sync always agree, save and debounce always agree, and
all four agree when the configuration contributes no patterns. -/
theorem C4_ignore_sites (c : FTPConfig) (root : Option String) (p : String) :
    uploadIgnoreCheck c root p = syncIgnoreCheck c root p ∧
    saveIgnoreCheck root p = watcherIgnoreCheck root p ∧
    (c.ignore.getD [] = [] → uploadIgnoreCheck c root p = saveIgnoreCheck root p) := by
  refine ⟨rfl, rfl, ?_⟩
  intro h
  simp [uploadIgnoreCheck, saveIgnoreCheck, shouldIgnoreFile, h]

/-- C4 (witness): the amended theorem at a configuration with an empty
ignore list. -/
theorem C4_witness :
    ({ cfg0 with ignore := none } : FTPConfig).ignore.getD [] = [] ∧
    uploadIgnoreCheck { cfg0 with ignore := none } (some "/ws") "/ws/secret.txt"
      = saveIgnoreCheck (some "/ws") "/ws/secret.txt" :=
  ⟨rfl, (C4_ignore_sites { cfg0 with ignore := none } (some "/ws") "/ws/secret.txt").2.2
    rfl⟩

/-- C8 (counterexample): the drain-time failure for a vanished local
file (ENOENT from `uploadFrom`) is requeued for retry like any other
open-connection failure — the task is not dropped without retry. -/
theorem C8_counterexample :
    uploadCatch task0 enoentErr false =
      { requeued := some ⟨"/ws/a.txt", "/a.txt", 1⟩, terminalReport := false,
        transient := false } := by
  decide

/-- C8 (amended): the existence check happens at enqueue time only
(`uploadFile` with a missing local file rejects the request and leaves
the queue unchanged); at drain time a vanished file surfaces as a
non-transient attempt error that goes through the generic retry path —
requeued while retries remain and the client is open, removed with a
terminal report once retries are exhausted. -/
theorem C8_vanished_file_policy (c : FTPConfig) (root : Option String)
    (st : MgrState) (lp : String) (rpa : Option String) (t : UploadTask)
    (hs : st.isSyncingOrDownloading = false) :
    uploadFile (some c) root false st lp rpa = (st, false) ∧
    isFatal enoentErr = true ∧
    (t.retries + 1 < maxRetries →
      (uploadCatch t enoentErr false).requeued
        = some { t with retries := t.retries + 1 }) ∧
    (maxRetries ≤ t.retries + 1 →
      (uploadCatch t enoentErr false).requeued = none ∧
      (uploadCatch t enoentErr false).terminalReport = true) := by
  refine ⟨?_, by decide, ?_, ?_⟩
  · simp [uploadFile, hs]
  · intro h
    simp [uploadCatch, h]
  · intro h
    simp only [uploadCatch]
    rw [if_neg (by omega)]
    exact ⟨rfl, rfl⟩

/-- C8 (witness): the amended theorem at a concrete idle state and a
fresh task. -/
theorem C8_witness :
    (⟨false, [], true⟩ : MgrState).isSyncingOrDownloading = false ∧
    uploadFile (some cfg0) (some "/ws") false ⟨false, [], true⟩ "/ws/a.txt" none
      = (⟨false, [], true⟩, false) ∧
    (task0.retries + 1 < maxRetries) ∧
    (uploadCatch task0 enoentErr false).requeued
      = some { task0 with retries := task0.retries + 1 } := by
  refine ⟨rfl, ?_, by decide, ?_⟩
  · exact (C8_vanished_file_policy cfg0 (some "/ws") ⟨false, [], true⟩ "/ws/a.txt"
      none task0 rfl).1
  · exact (C8_vanished_file_policy cfg0 (some "/ws") ⟨false, [], true⟩ "/ws/a.txt"
      none task0 rfl).2.2.1 (by decide)

/-- C9: a delete (file or directory) failing with protocol code 550
returns success, is never surfaced as a failure, leaves the connection
status untouched and schedules no reconnect. -/
theorem C9_delete_not_found (e : FTPErrInfo)
    (hf : e.isFTPErr = true) (hc : e.code = 550) :
    deleteFileAttempt (some e) = ⟨true, false, false, false⟩ ∧
    deleteDirectoryAttempt (some e) = ⟨true, false, false, false⟩ := by
  constructor
  · simp [deleteFileAttempt, hf, hc]
  · simp [deleteDirectoryAttempt, hf, hc]

/-- C9 (witness): the theorem at the concrete 550 error. -/
theorem C9_witness :
    notFoundErr.isFTPErr = true ∧ notFoundErr.code = 550 ∧
    deleteFileAttempt (some notFoundErr) = ⟨true, false, false, false⟩ ∧
    deleteDirectoryAttempt (some notFoundErr) = ⟨true, false, false, false⟩ :=
  ⟨rfl, rfl, (C9_delete_not_found notFoundErr rfl rfl).1,
    (C9_delete_not_found notFoundErr rfl rfl).2⟩

/-- Each status mutation site preserves mutual exclusion of `connected`
and `connecting`. -/
theorem statusStep_exclusive (s : ConnectionStatus) (e : ConnEvent)
    (h : (s.connected && s.connecting) = false) :
    ((statusStep s e).connected && (statusStep s e).connecting) = false := by
  cases e <;> simp_all [statusStep]

/-- C6: in every state reachable from the initial status through the
status-mutation sites of `FTPManager`, `connected` and `connecting` are
never simultaneously true. -/
theorem C6_status_exclusive (es : List ConnEvent) :
    ((runStatus es).connected && (runStatus es).connecting) = false := by
  suffices h : ∀ (es : List ConnEvent) (s : ConnectionStatus),
      (s.connected && s.connecting) = false →
      ((es.foldl statusStep s).connected && (es.foldl statusStep s).connecting) = false by
    exact h es initialStatus rfl
  intro es
  induction es with
  | nil => intro s hs; simpa using hs
  | cons e es ih => intro s hs; exact ih (statusStep s e) (statusStep_exclusive s e hs)

/-- `scheduleReconnect` never raises the timer count above one. -/
theorem scheduleReconnect_le_one (st : ReconnState) (h : st.pendingTimers ≤ 1) :
    (scheduleReconnect st).pendingTimers ≤ 1 := by
  by_cases h1 : st.connecting = true ∨ 0 < st.pendingTimers
  · simp [scheduleReconnect, h1, h]
  · by_cases h2 : (st.clientNull && !st.hasError) = true
    · simp [scheduleReconnect, h1, h2, h]
    · rcases not_or.mp h1 with ⟨h1a, h3⟩
      have h0 : st.pendingTimers = 0 := by omega
      simp [scheduleReconnect, h1a, h2, h0]

/-- Every reconnect-related mutation site keeps the timer count at most
one. -/
theorem reconnStep_le_one (st : ReconnState) (e : RcEvent)
    (h : st.pendingTimers ≤ 1) : (reconnStep st e).pendingTimers ≤ 1 := by
  cases e with
  | connLost => exact scheduleReconnect_le_one _ h
  | connectBegin =>
    by_cases h1 : st.connecting = true
    · simpa [reconnStep, connectBeginStep, h1] using h
    · by_cases h2 : (st.connected && !st.clientNull) = true
      · simpa [reconnStep, connectBeginStep, h1, h2] using h
      · simp [reconnStep, connectBeginStep, h1, h2]
  | connectSuccess => simpa [reconnStep, connectSuccessStep] using h
  | connectFailure => exact scheduleReconnect_le_one _ h
  | timerFire =>
    by_cases h1 : 0 < st.pendingTimers
    · simp [reconnStep, timerFireStep, h1]
      omega
    · simpa [reconnStep, timerFireStep, h1] using h
  | disconnect => simp [reconnStep, disconnectStep]
  | schedule => exact scheduleReconnect_le_one _ h

/-- C10: at most one reconnect timer is ever pending in any reachable
state; `scheduleReconnect` is a no-op while a timer is pending or a
connect is in progress; the proceeding path of `connect()` and every
`disconnect()` cancel any pending timer. -/
theorem C10_single_reconnect_timer :
    (∀ es : List RcEvent, (runReconn es).pendingTimers ≤ 1) ∧
    (∀ st : ReconnState, st.connecting = true ∨ 0 < st.pendingTimers →
      scheduleReconnect st = st) ∧
    (∀ st : ReconnState, st.connecting = false →
      (st.connected && !st.clientNull) = false →
      (connectBeginStep st).pendingTimers = 0) ∧
    (∀ st : ReconnState, (disconnectStep st).pendingTimers = 0) := by
  refine ⟨?_, ?_, ?_, ?_⟩
  · intro es
    suffices h : ∀ (es : List RcEvent) (st : ReconnState), st.pendingTimers ≤ 1 →
        (es.foldl reconnStep st).pendingTimers ≤ 1 by
      exact h es initialReconn (by decide)
    intro es
    induction es with
    | nil => intro st hs; exact hs
    | cons e es ih => intro st hs; exact ih _ (reconnStep_le_one st e hs)
  · intro st h
    simp [scheduleReconnect, h]
  · intro st h1 h2
    simp [connectBeginStep, h1, h2]
  · intro st
    simp [disconnectStep]

/-- C10 (witness): the theorem at concrete states — two consecutive
connection losses still leave at most one timer; a schedule against a
pending timer changes nothing; a proceeding connect and a disconnect
clear the timer. -/
theorem C10_witness :
    (runReconn [RcEvent.connLost, RcEvent.connLost]).pendingTimers ≤ 1 ∧
    scheduleReconnect ⟨false, false, 1, false, true⟩ = ⟨false, false, 1, false, true⟩ ∧
    (connectBeginStep ⟨false, false, 1, false, true⟩).pendingTimers = 0 ∧
    (disconnectStep ⟨true, false, 1, false, false⟩).pendingTimers = 0 := by
  refine ⟨C10_single_reconnect_timer.1 _,
    C10_single_reconnect_timer.2.1 _ (Or.inr (by decide)),
    C10_single_reconnect_timer.2.2.1 _ rfl (by decide),
    C10_single_reconnect_timer.2.2.2 _⟩

/-- Each watcher event preserves the debounce-map invariant. -/
theorem watcherStep_inv (root : Option String) (st : WatcherState) (e : WEvent)
    (h : watcherInv root st) : watcherInv root (watcherStep root st e) := by
  obtain ⟨hnd, hmem⟩ := h
  cases e with
  | watch p =>
    by_cases h1 : isInWorkspace root p = false
    · simpa [watcherStep, debounceUpload, h1] using ⟨hnd, hmem⟩
    · by_cases h2 : shouldIgnoreFile p root none = true
      · simpa [watcherStep, debounceUpload, h1, h2] using ⟨hnd, hmem⟩
      · refine ⟨?_, ?_⟩
        · simpa [watcherStep, debounceUpload, h1, h2] using
            List.Nodup.cons hnd.not_mem_erase (hnd.erase p)
        · intro q hq
          simp [watcherStep, debounceUpload, h1, h2] at hq
          rcases hq with hq | hq
          · subst hq
            exact ⟨by simpa using h1, by simpa using h2⟩
          · exact hmem q (List.mem_of_mem_erase hq)
  | fire p =>
    by_cases h1 : p ∈ st.pending
    · refine ⟨by simpa [watcherStep, fireTimer, h1] using hnd.erase p, ?_⟩
      intro q hq
      simp only [watcherStep, fireTimer, if_pos h1] at hq
      exact hmem q (List.mem_of_mem_erase hq)
    · simpa [watcherStep, fireTimer, h1] using ⟨hnd, hmem⟩
  | save p =>
    by_cases h1 : isInWorkspace root p = false
    · simpa [watcherStep, onSave, h1] using ⟨hnd, hmem⟩
    · by_cases h2 : shouldIgnoreFile p root none = true
      · simpa [watcherStep, onSave, h1, h2] using ⟨hnd, hmem⟩
      · refine ⟨by simpa [watcherStep, onSave, h1, h2] using hnd.erase p, ?_⟩
        intro q hq
        simp [watcherStep, onSave, h1, h2] at hq
        exact hmem q (List.mem_of_mem_erase hq)
  | stop => exact ⟨List.nodup_nil, by simp [watcherStep, stopWatcher]⟩

/-- The invariant holds in every reachable watcher state. -/
theorem runWatcher_inv (root : Option String) (es : List WEvent) :
    watcherInv root (runWatcher root es) := by
  suffices h : ∀ (es : List WEvent) (st : WatcherState), watcherInv root st →
      watcherInv root (es.foldl (watcherStep root) st) by
    exact h es ⟨[]⟩ ⟨List.nodup_nil, by simp⟩
  intro es
  induction es with
  | nil => intro st hs; exact hs
  | cons e es ih => intro st hs; exact ih _ (watcherStep_inv root st e hs)

/-- C7: in any reachable watcher state, saving a file whose debounce
timer is pending removes the timer, triggers exactly one immediate
upload call, and the removed timer can no longer fire. -/
theorem C7_save_cancels_pending (root : Option String) (es : List WEvent)
    (p : String) (hp : p ∈ (runWatcher root es).pending) :
    onSave root (runWatcher root es) p
      = (⟨(runWatcher root es).pending.erase p⟩, [p]) ∧
    p ∉ (onSave root (runWatcher root es) p).1.pending ∧
    fireTimer (onSave root (runWatcher root es) p).1 p
      = ((onSave root (runWatcher root es) p).1, []) := by
  obtain ⟨hnd, hmem⟩ := runWatcher_inv root es
  obtain ⟨hw, hig⟩ := hmem p hp
  have h1 : onSave root (runWatcher root es) p
      = (⟨(runWatcher root es).pending.erase p⟩, [p]) := by
    simp [onSave, hw, hig]
  have h2 : p ∉ (runWatcher root es).pending.erase p := hnd.not_mem_erase
  refine ⟨h1, ?_, ?_⟩
  · rw [h1]
    exact h2
  · rw [h1]
    simp [fireTimer, h2]

/-- C7 (witness): after one watched change of `/ws/a.txt` its timer is
pending, and a save removes it and uploads exactly once. -/
theorem C7_witness :
    "/ws/a.txt" ∈ (runWatcher (some "/ws") [WEvent.watch "/ws/a.txt"]).pending ∧
    onSave (some "/ws") (runWatcher (some "/ws") [WEvent.watch "/ws/a.txt"]) "/ws/a.txt"
      = (⟨(runWatcher (some "/ws") [WEvent.watch "/ws/a.txt"]).pending.erase "/ws/a.txt"⟩,
         ["/ws/a.txt"]) := by
  refine ⟨by decide, (C7_save_cancels_pending (some "/ws") [WEvent.watch "/ws/a.txt"]
    "/ws/a.txt" (by decide)).1⟩

/-- Tasks remaining in the queue after a drain round always hold
`retries < maxRetries`: a task is only requeued when its incremented
count is still below the maximum. -/
theorem runDrain_retries (connected : Bool) (os : List AttemptOutcome)
    (q : List UploadTask) (h : ∀ t ∈ q, t.retries < maxRetries) :
    ∀ t ∈ (runDrain connected os q).1, t.retries < maxRetries := by
  induction os generalizing connected q with
  | nil =>
    intro x hx
    rw [runDrain.eq_def] at hx
    cases q with
    | nil => simp at hx
    | cons t q' =>
      cases connected with
      | false => simp at hx; exact h x (by simpa using hx)
      | true => simp at hx; exact h x (by simpa using hx)
  | cons o os' ih =>
    intro x hx
    rw [runDrain.eq_def] at hx
    cases q with
    | nil => simp at hx
    | cons t q' =>
      cases connected with
      | false => simp at hx; exact h x (by simpa using hx)
      | true =>
        cases o with
        | ok =>
          simp only [if_true] at hx
          exact ih true q' (fun y hy => h y (List.mem_cons_of_mem _ hy)) x (by
            simpa using hx)
        | fail e closed =>
          by_cases hcond : t.retries + 1 < maxRetries ∧ closed = false
          · simp only [if_true, uploadCatch, if_pos hcond] at hx
            refine ih _ ({ t with retries := t.retries + 1 } :: q') ?_ x (by simpa using hx)
            intro y hy
            rcases List.mem_cons.mp hy with rfl | hy
            · exact hcond.1
            · exact h y (List.mem_cons_of_mem _ hy)
          · simp only [if_true, uploadCatch, if_neg hcond] at hx
            cases closed with
            | true =>
              simp at hx
              exact h x (List.mem_cons_of_mem _ hx)
            | false =>
              simp at hx
              exact ih _ q' (fun y hy => h y (List.mem_cons_of_mem _ hy)) x (by
                simpa using hx)

/-- Every drain report names a file from the queue it started with. -/
theorem runDrain_report_names (connected : Bool) (os : List AttemptOutcome)
    (q : List UploadTask) :
    ∀ r ∈ (runDrain connected os q).2,
      reportName r ∈ q.map (fun t => basename t.localPath) := by
  induction os generalizing connected q with
  | nil =>
    intro r hr
    rw [runDrain.eq_def] at hr
    cases q with
    | nil => simp at hr
    | cons t q' => cases connected <;> simp at hr
  | cons o os' ih =>
    intro r hr
    rw [runDrain.eq_def] at hr
    cases q with
    | nil => simp at hr
    | cons t q' =>
      cases connected with
      | false => simp at hr
      | true =>
        cases o with
        | ok =>
          simp only [if_true] at hr
          rcases List.mem_cons.mp (by simpa using hr) with rfl | hr'
          · simp [reportName]
          · have := ih true q' r hr'
            simp only [List.map_cons]
            exact List.mem_cons_of_mem _ this
        | fail e closed =>
          by_cases hcond : t.retries + 1 < maxRetries ∧ closed = false
          · simp only [if_true, uploadCatch, if_pos hcond] at hr
            have := ih _ ({ t with retries := t.retries + 1 } :: q') r (by simpa using hr)
            simpa using this
          · simp only [if_true, uploadCatch, if_neg hcond] at hr
            cases closed with
            | true =>
              simp at hr
              simp [hr, reportName]
            | false =>
              simp at hr
              rcases hr with rfl | hr'
              · simp [reportName]
              · have := ih _ q' r hr'
                simp only [List.map_cons]
                exact List.mem_cons_of_mem _ this

/-- With pairwise-distinct file names in the queue, a drain round emits
at most one terminal failure report per file name. -/
theorem runDrain_error_once (connected : Bool) (os : List AttemptOutcome)
    (q : List UploadTask)
    (hnd : (q.map (fun t => basename t.localPath)).Nodup) (p : String) :
    ((runDrain connected os q).2.count (Report.uploadError p)) ≤ 1 := by
  induction os generalizing connected q with
  | nil =>
    rw [runDrain.eq_def]
    cases q with
    | nil => simp
    | cons t q' => cases connected <;> simp
  | cons o os' ih =>
    rw [runDrain.eq_def]
    cases q with
    | nil => simp
    | cons t q' =>
      cases connected with
      | false => simp
      | true =>
        cases o with
        | ok =>
          simp only [if_true]
          have hnd' : (q'.map (fun t => basename t.localPath)).Nodup :=
            (List.nodup_cons.mp (by simpa using hnd)).2
          simpa [List.count_cons] using ih true q' hnd'
        | fail e closed =>
          by_cases hcond : t.retries + 1 < maxRetries ∧ closed = false
          · simp only [if_true, uploadCatch, if_pos hcond]
            exact ih _ ({ t with retries := t.retries + 1 } :: q') (by simpa using hnd)
          · simp only [if_true, uploadCatch, if_neg hcond]
            have hhead : basename t.localPath ∉ q'.map (fun t => basename t.localPath) :=
              (List.nodup_cons.mp (by simpa using hnd)).1
            have hnd' : (q'.map (fun t => basename t.localPath)).Nodup :=
              (List.nodup_cons.mp (by simpa using hnd)).2
            cases closed with
            | true =>
              simp only [if_true]
              by_cases hp : Report.uploadError p = Report.uploadError (basename t.localPath)
              · simp [List.count_cons, hp]
              · simp [List.count_cons, hp]
            | false =>
              simp only [Bool.false_eq_true, if_false]
              simp only [List.count_cons]
              generalize (if isTransient e = true then false else true) = c2
              have hzero : p = basename t.localPath →
                  (List.count (Report.uploadError p) (runDrain c2 os' q').2) = 0 := by
                intro hp
                rw [List.count_eq_zero]
                intro hmem
                have hnames := runDrain_report_names _ os' q' _ hmem
                simp only [reportName] at hnames
                exact hhead (hp ▸ hnames)
              by_cases hp : p = basename t.localPath
              · rw [hzero hp]
                split <;> simp
              · have hle := ih c2 q' hnd'
                split
                · next hbe => exact absurd (Eq.symm (by simpa using hbe)) hp
                · omega

/-- C5: tasks in the queue never carry a retry count beyond the bound
(every task still queued after any drain round has `retries < 3`), and
once a task's retries reach the maximum it is removed (not requeued) and
reported as a terminal failure — with distinct file names, at most one
terminal failure report is emitted per file. -/
theorem C5_retry_bound (connected : Bool) (os : List AttemptOutcome)
    (q : List UploadTask)
    (hr : ∀ t ∈ q, t.retries < maxRetries)
    (hnd : (q.map (fun t => basename t.localPath)).Nodup) :
    (∀ t ∈ (runDrain connected os q).1, t.retries < maxRetries) ∧
    (∀ p : String, ((runDrain connected os q).2.count (Report.uploadError p)) ≤ 1) ∧
    (∀ (t : UploadTask) (e : FTPErrInfo) (closed : Bool),
      t.retries + 1 = maxRetries →
      (uploadCatch t e closed).requeued = none ∧
      (uploadCatch t e closed).terminalReport = true) := by
  refine ⟨runDrain_retries connected os q hr,
    fun p => runDrain_error_once connected os q hnd p, ?_⟩
  intro t e closed ht
  simp only [uploadCatch]
  rw [if_neg (fun hab => absurd hab.1 (by omega))]
  exact ⟨rfl, rfl⟩

/-- C5 (witness): the theorem at a concrete fresh two-task queue and a
failing first attempt. -/
theorem C5_witness :
    (∀ t ∈ q0, t.retries < maxRetries) ∧
    ((q0.map (fun t => basename t.localPath)).Nodup) ∧
    (∀ p : String,
      ((runDrain true [AttemptOutcome.fail permErr false] q0).2.count
        (Report.uploadError p)) ≤ 1) := by
  refine ⟨by decide, by decide, ?_⟩
  exact (C5_retry_bound true [AttemptOutcome.fail permErr false] q0 (by decide)
    (by decide)).2.1

end SmartFTP
